import Mathlib

/-!
Verification development for the power-logger INA226 driver.

The driver (INA226.cpp) talks to an INA226 power monitor behind a TCA9548A
multiplexer over a two-wire bus.  The bus collaborator (Arduino TwoWire) is
external to the repository; it is modelled abstractly as a record of the
primitive operations the driver invokes, so the driver functions below are
written generically over any bus model.  Two bus models are instantiated:
a scripted bus that records a trace of every primitive call and answers
status/byte queries from a prearranged script, and a mock register store
that retains the byte sequences written to each register and plays them
back on a read request.

Machine integers are modelled as Nat with explicit `% 2^w` where the C
types truncate; `float` quantities are modelled as exact rationals (ℚ),
so the decimal literals of the source denote their exact decimal values.
An out-of-bounds C array read is undefined behaviour and is modelled as
`Option.none`.
-/

namespace PowerLogger

/-- Default address of the TCA9548APWR multiplexer (MUX_ADDR, INA226.h). -/
def MUX_ADDR : Nat := 0x75

/-- Default address of the INA226 monitor (STD_ADDR, INA226.h). -/
def STD_ADDR : Nat := 0x40

/-- Calibration register address (CAL_REG, INA226.h). -/
def CAL_REG : Nat := 0x05

/-- Power register address (PWR_REG, INA226.h). -/
def PWR_REG : Nat := 0x03

/-- Channel offset added to the sensor index (MUX_SENSOR_OFFSET, INA226.cpp). -/
def MUX_SENSOR_OFFSET : Nat := 0x04

/-- Fixed power-LSB scaling factor (POWER_LSB_SCALE = 25.0f, INA226.cpp). -/
def POWER_LSB_SCALE : ℚ := 25

/-- High bus clock rate (I2C_SPEED_HIGH = 400000UL, INA226.cpp). -/
def I2C_SPEED_HIGH : Nat := 400000

/-- Low bus clock rate (I2C_SPEED_LOW = 100000UL, INA226.cpp). -/
def I2C_SPEED_LOW : Nat := 100000

/-- Number of sensor rails (NUM_SENS, INA226.h): PS = 0, PL = 1. -/
def NUM_SENS : Nat := 2

/-- Calibration table of the first header variant:
cal_reg = \x7b\x7b0x0D1B, 0x0800\x7d, \x7b0x0D1B, 0x0800\x7d\x7d, rows indexed by board
(ZCU102, ZCU106), columns by rail (PS, PL). -/
def cal_reg_v0 : List (List Nat) := [[0x0D1B, 0x0800], [0x0D1B, 0x0800]]

/-- LSB-scale table of the first header variant:
lsb_val = \x7b\x7b0.0003052, 0.0005\x7d, \x7b0.0003052, 0.0005\x7d\x7d. -/
def lsb_val_v0 : List (List ℚ) := [[0.0003052, 0.0005], [0.0003052, 0.0005]]

/-- Calibration table of the second header variant:
cal_reg = \x7b\x7b0x0D1B, 0x0800\x7d, \x7b0x0800, 0x0831\x7d\x7d. -/
def cal_reg_v1 : List (List Nat) := [[0x0D1B, 0x0800], [0x0800, 0x0831]]

/-- LSB-scale table of the second header variant:
lsb_val = \x7b\x7b0.0003052, 0.00125\x7d, \x7b0.0005, 0.0012208\x7d\x7d. -/
def lsb_val_v1 : List (List ℚ) := [[0.0003052, 0.00125], [0.0005, 0.0012208]]

/-- Two-dimensional C array access `t[i][j]`; `none` models the undefined
behaviour of an out-of-bounds read. -/
def tableGet {α : Type} (t : List (List α)) (i j : Nat) : Option α :=
  (t.get? i).bind (fun row => row.get? j)

/-- One primitive bus operation, as recorded by the scripted bus model.
Arguments record what the driver put on (or received from) the bus. -/
inductive Event where
  | busBegin : Event
  | setClock (hz : Nat) : Event
  | beginT (addr : Nat) : Event
  | writeB (b : Nat) : Event
  | endT (status : Nat) : Event
  | reqFrom (addr n ret : Nat) : Event
  | readB (b : Nat) : Event
deriving DecidableEq

/-- The primitive operations the driver invokes on its TwoWire handle
(begin, setClock, beginTransmission, write, endTransmission, requestFrom,
read), over an abstract bus state σ.  This is the consumed interface of
the external bus collaborator. -/
structure WireOps (σ : Type) where
  busBegin : σ → σ
  setClock : Nat → σ → σ
  beginTransmission : Nat → σ → σ
  write : Nat → σ → σ
  endTransmission : σ → Nat × σ
  requestFrom : Nat → Nat → σ → Nat × σ
  read : σ → Nat × σ

/-- State of the scripted bus: prearranged endTransmission statuses,
requestFrom byte counts and read bytes, consumed front-first, plus the
trace of every primitive call made so far. -/
structure ScriptState where
  statuses : List Nat
  counts : List Nat
  bytes : List Nat
  trace : List Event
deriving DecidableEq

/-- The scripted bus: answers each endTransmission / requestFrom / read
from its script (defaulting to 0 past the end) and logs every call. -/
def scriptWire : WireOps ScriptState where
  busBegin s := { s with trace := s.trace ++ [Event.busBegin] }
  setClock hz s := { s with trace := s.trace ++ [Event.setClock hz] }
  beginTransmission a s := { s with trace := s.trace ++ [Event.beginT a] }
  write b s := { s with trace := s.trace ++ [Event.writeB b] }
  endTransmission s :=
    let st := s.statuses.headD 0
    (st, { s with statuses := s.statuses.tail, trace := s.trace ++ [Event.endT st] })
  requestFrom a n s :=
    let c := s.counts.headD 0
    (c, { s with counts := s.counts.tail, trace := s.trace ++ [Event.reqFrom a n c] })
  read s :=
    let b := s.bytes.headD 0
    (b, { s with bytes := s.bytes.tail, trace := s.trace ++ [Event.readB b] })

/-- INA226::_sel_sensor: address the multiplexer, write the channel byte
`sensor + MUX_SENSOR_OFFSET` (truncated to uint8_t), close the
transaction and return its status. -/
def sel_sensor {σ : Type} (W : WireOps σ) (sensor : Nat) (s : σ) : Nat × σ :=
  let s := W.beginTransmission MUX_ADDR s
  let s := W.write ((sensor + MUX_SENSOR_OFFSET) % 256) s
  W.endTransmission s

/-- INA226::_write_reg: address the device, write the register address,
then the 16-bit value high byte (`val >> 8`) first, low byte
(`val & 0xff`) second, close the transaction and return its status. -/
def write_reg {σ : Type} (W : WireOps σ) (address reg val : Nat) (s : σ) : Nat × σ :=
  let s := W.beginTransmission address s
  let s := W.write (reg % 256) s
  let s := W.write ((val >>> 8) % 256) s
  let s := W.write ((val &&& 0xff) % 256) s
  W.endTransmission s

/-- INA226::_read_reg: address the device, write the register address; if
the address phase fails return -1; request two bytes; if fewer arrive
return -1; otherwise reassemble big-endian into a uint16_t
(`val = read(); val <<= 8; val |= read();`, each step truncated to
16 bits) and return it widened to int32_t. -/
def read_reg {σ : Type} (W : WireOps σ) (address reg : Nat) (s : σ) : Int × σ :=
  let s := W.beginTransmission address s
  let s := W.write (reg % 256) s
  let r := W.endTransmission s
  if r.1 ≠ 0 then (-1, r.2)
  else
    let q := W.requestFrom address 2 r.2
    if q.1 ≠ 2 then (-1, q.2)
    else
      let u := W.read q.2
      let v := W.read u.2
      (Int.ofNat ((((u.1 % 65536) <<< 8) % 65536 ||| v.1) % 65536), v.2)

/-- INA226::set_I2C_speed: the parameter is uint16_t, so `speed` here is
the stored 16-bit value; the clock is set to I2C_SPEED_HIGH when the
parameter equals it, else to I2C_SPEED_LOW. -/
def set_I2C_speed (speed : Nat) : Nat :=
  if speed = I2C_SPEED_HIGH then I2C_SPEED_HIGH else I2C_SPEED_LOW

/-- The driver instance: device address and board identity, as set by the
constructor. -/
structure INA226 where
  address : Nat
  board : Fin 2
deriving DecidableEq

/-- INA226::INA226(board, wire): begin the bus, set the clock (the
uint32_t argument I2C_SPEED_HIGH is truncated to the uint16_t parameter
of set_I2C_speed), then for each sensor index in 0..NUM_SENS-1 select
that channel and write the calibration register with the table entry
`cal[board][i]` (in bounds for every board of Fin 2; `getD 0` is never
reached there). -/
def construct {σ : Type} (W : WireOps σ) (board : Fin 2) (cal : List (List Nat))
    (s : σ) : INA226 × σ :=
  let s := W.busBegin s
  let s := W.setClock (set_I2C_speed (I2C_SPEED_HIGH % 65536)) s
  let s := (List.range NUM_SENS).foldl (fun s i =>
    let s := (sel_sensor W i s).2
    (write_reg W STD_ADDR CAL_REG ((tableGet cal board.val i).getD 0) s).2) s
  ({ address := STD_ADDR, board := board }, s)

/-- INA226::get_pwr: select the sensor (return -1.0 on failure), read the
power register (return -1.0 on failure), else return
`raw * (lsb_val[board][sensor] * POWER_LSB_SCALE)`; the out-of-bounds
table read for sensor ≥ 2 is undefined behaviour, modelled as `none`. -/
def get_pwr {σ : Type} (W : WireOps σ) (d : INA226) (lsb : List (List ℚ))
    (sensor : Nat) (s : σ) : Option ℚ × σ :=
  let r := sel_sensor W sensor s
  if r.1 ≠ 0 then (some (-1), r.2)
  else
    let q := read_reg W d.address PWR_REG r.2
    if q.1 < 0 then (some (-1), q.2)
    else
      match tableGet lsb d.board.val sensor with
      | none => (none, q.2)
      | some l => (some ((q.1 : ℚ) * (l * POWER_LSB_SCALE)), q.2)

/-- Trace of the bus operations issued by the constructor when every
transaction succeeds (an all-zero status script). -/
def initTrace (b : Fin 2) (cal : List (List Nat)) : List Event :=
  (construct scriptWire b cal { statuses := [0, 0, 0, 0], counts := [], bytes := [], trace := [] }).2.trace

/-- The outgoing bytes of a trace: the transaction openings and the bytes
written, dropping status returns and incoming data. -/
def outgoing (t : List Event) : List Event :=
  t.filter (fun e =>
    match e with
    | Event.busBegin => true
    | Event.setClock _ => true
    | Event.beginT _ => true
    | Event.writeB _ => true
    | _ => false)

/-- Script for one successful get_pwr call: both transactions acknowledge,
two bytes arrive, the device sends the raw value big-endian. -/
def readScript (raw : Nat) : ScriptState :=
  { statuses := [0, 0], counts := [2], bytes := [raw / 256, raw % 256], trace := [] }

/-- State of the mock register store.  Modelled from the spec: the mock
register store posited by the round-trip testable property.  It retains,
per register, the byte sequence most recently written to it, and a read
request returns exactly those bytes in the order they were written. -/
structure MockState where
  regs : List (Nat × List Nat)
  pointer : Nat
  txBuf : List Nat
  rxBuf : List Nat
deriving DecidableEq

/-- Byte sequence stored for register r (most recent write wins). -/
def storeGet (regs : List (Nat × List Nat)) (r : Nat) : List Nat :=
  match regs.find? (fun p => p.1 == r) with
  | some p => p.2
  | none => []

/-- Modelled from the spec: the mock register store bus.  A transaction of
a single byte sets the register pointer; a longer transaction stores its
data bytes under its first byte (the register address); a read request
returns the stored bytes verbatim, in order. -/
def mockWire : WireOps MockState where
  busBegin s := s
  setClock _ s := s
  beginTransmission _ s := { s with txBuf := [] }
  write b s := { s with txBuf := s.txBuf ++ [b % 256] }
  endTransmission s :=
    match s.txBuf with
    | [r] => (0, { s with pointer := r, txBuf := [] })
    | r :: ds => (0, { s with regs := (r, ds) :: s.regs, pointer := r, txBuf := [] })
    | [] => (0, s)
  requestFrom _ n s :=
    let ds := (storeGet s.regs s.pointer).take n
    (ds.length, { s with rxBuf := ds })
  read s := (s.rxBuf.headD 0, { s with rxBuf := s.rxBuf.tail })

theorem busBegin_step (sts cs bs : List Nat) (tr : List Event) :
    scriptWire.busBegin ⟨sts, cs, bs, tr⟩ = ⟨sts, cs, bs, tr ++ [Event.busBegin]⟩ := rfl

theorem setClock_step (hz : Nat) (sts cs bs : List Nat) (tr : List Event) :
    scriptWire.setClock hz ⟨sts, cs, bs, tr⟩ = ⟨sts, cs, bs, tr ++ [Event.setClock hz]⟩ := rfl

theorem sel_step (sensor st : Nat) (sts cs bs : List Nat) (tr : List Event) :
    sel_sensor scriptWire sensor ⟨st :: sts, cs, bs, tr⟩
      = (st, ⟨sts, cs, bs, tr ++ [Event.beginT MUX_ADDR,
          Event.writeB ((sensor + MUX_SENSOR_OFFSET) % 256), Event.endT st]⟩) := by
  simp [sel_sensor, scriptWire, List.append_assoc]

theorem write_step (address reg val st : Nat) (sts cs bs : List Nat) (tr : List Event) :
    write_reg scriptWire address reg val ⟨st :: sts, cs, bs, tr⟩
      = (st, ⟨sts, cs, bs, tr ++ [Event.beginT address, Event.writeB (reg % 256),
          Event.writeB ((val >>> 8) % 256), Event.writeB ((val &&& 0xff) % 256),
          Event.endT st]⟩) := by
  simp [write_reg, scriptWire, List.append_assoc]

/-- Running the constructor consumes the first four scripted statuses and
appends the full initialization transcript, whatever those statuses are:
the constructor's control flow never consults them. -/
theorem construct_run (b : Fin 2) (cal : List (List Nat)) (s1 s2 s3 s4 : Nat)
    (sts cs bs : List Nat) (tr : List Event) :
    construct scriptWire b cal ⟨s1 :: s2 :: s3 :: s4 :: sts, cs, bs, tr⟩
      = (⟨STD_ADDR, b⟩,
         ⟨sts, cs, bs, tr ++
           [Event.busBegin, Event.setClock I2C_SPEED_LOW,
            Event.beginT MUX_ADDR, Event.writeB ((0 + MUX_SENSOR_OFFSET) % 256), Event.endT s1,
            Event.beginT STD_ADDR, Event.writeB (CAL_REG % 256),
            Event.writeB (((tableGet cal b.val 0).getD 0 >>> 8) % 256),
            Event.writeB (((tableGet cal b.val 0).getD 0 &&& 0xff) % 256), Event.endT s2,
            Event.beginT MUX_ADDR, Event.writeB ((1 + MUX_SENSOR_OFFSET) % 256), Event.endT s3,
            Event.beginT STD_ADDR, Event.writeB (CAL_REG % 256),
            Event.writeB (((tableGet cal b.val 1).getD 0 >>> 8) % 256),
            Event.writeB (((tableGet cal b.val 1).getD 0 &&& 0xff) % 256), Event.endT s4]⟩) := by
  have hclock : set_I2C_speed (I2C_SPEED_HIGH % 65536) = I2C_SPEED_LOW := by decide
  have hrange : List.range NUM_SENS = [0, 1] := rfl
  simp only [construct, hclock, hrange, List.foldl_cons, List.foldl_nil,
    busBegin_step, setClock_step, sel_step, write_step, List.append_assoc,
    List.cons_append, List.nil_append]

theorem shl8_or_eq (hi lo : Nat) (hlo : lo < 256) :
    (hi <<< 8) ||| lo = hi * 256 + lo := by
  have hlo' : lo < 2 ^ 8 := by simpa using hlo
  have h := (Nat.mul_add_lt_is_or hlo' hi).symm
  rw [Nat.shiftLeft_eq, Nat.mul_comm hi (2 ^ 8), ← h]

theorem reassemble (b1 b2 : Nat) (h1 : b1 < 256) (h2 : b2 < 256) :
    (((b1 % 65536) <<< 8) % 65536 ||| b2) % 65536 = b1 * 256 + b2 := by
  rw [Nat.mod_eq_of_lt (by omega : b1 < 65536)]
  rw [Nat.mod_eq_of_lt (by rw [Nat.shiftLeft_eq]; norm_num; omega : b1 <<< 8 < 65536)]
  rw [shl8_or_eq b1 b2 h2]
  exact Nat.mod_eq_of_lt (by omega)

/-- C9: the two header variants agree on the ZCU102 calibration row
(0x0D1B, 0x0800) but their ZCU106 rows differ: (0x0D1B, 0x0800) in the
first variant versus (0x0800, 0x0831) in the second. -/
theorem cal_tables_disagree :
    (cal_reg_v0.get? 0 = some [0x0D1B, 0x0800] ∧ cal_reg_v1.get? 0 = some [0x0D1B, 0x0800])
    ∧ (cal_reg_v0.get? 1 = some [0x0D1B, 0x0800] ∧ cal_reg_v1.get? 1 = some [0x0800, 0x0831])
    ∧ cal_reg_v0.get? 1 ≠ cal_reg_v1.get? 1 := by decide

/-- C4 (against the claim): the set_I2C_speed parameter is uint16_t, so no
argument value can equal I2C_SPEED_HIGH = 400000; every representable
input selects the low rate, including the constructor's own
set_I2C_speed(I2C_SPEED_HIGH) call, whose argument truncates to 6784. -/
theorem set_speed_always_low (speed : Nat) (h : speed < 65536) :
    set_I2C_speed speed = I2C_SPEED_LOW := by
  unfold set_I2C_speed I2C_SPEED_HIGH
  rw [if_neg]
  omega

theorem set_speed_always_low_witness :
    400000 % 65536 < 65536 ∧ set_I2C_speed (400000 % 65536) = I2C_SPEED_LOW :=
  ⟨by decide, set_speed_always_low (400000 % 65536) (by decide)⟩

/-- C3: for either board, the constructor's bus trace is exactly: bus
begin, clock set, then for rail 0 and rail 1 in order: select that rail
on the multiplexer (channel byte rail + 4), then one write transaction
to the device consisting of register address 0x05 followed by the high
and low bytes of that board's table entry for that rail — all completed
before the constructor returns. -/
theorem construct_calibrates_each_rail :
    (initTrace 0 cal_reg_v0 =
      [Event.busBegin, Event.setClock I2C_SPEED_LOW,
       Event.beginT MUX_ADDR, Event.writeB (0 + MUX_SENSOR_OFFSET), Event.endT 0,
       Event.beginT STD_ADDR, Event.writeB CAL_REG,
       Event.writeB (0x0D1B / 256), Event.writeB (0x0D1B % 256), Event.endT 0,
       Event.beginT MUX_ADDR, Event.writeB (1 + MUX_SENSOR_OFFSET), Event.endT 0,
       Event.beginT STD_ADDR, Event.writeB CAL_REG,
       Event.writeB (0x0800 / 256), Event.writeB (0x0800 % 256), Event.endT 0])
    ∧ (initTrace 1 cal_reg_v0 =
      [Event.busBegin, Event.setClock I2C_SPEED_LOW,
       Event.beginT MUX_ADDR, Event.writeB (0 + MUX_SENSOR_OFFSET), Event.endT 0,
       Event.beginT STD_ADDR, Event.writeB CAL_REG,
       Event.writeB (0x0D1B / 256), Event.writeB (0x0D1B % 256), Event.endT 0,
       Event.beginT MUX_ADDR, Event.writeB (1 + MUX_SENSOR_OFFSET), Event.endT 0,
       Event.beginT STD_ADDR, Event.writeB CAL_REG,
       Event.writeB (0x0800 / 256), Event.writeB (0x0800 % 256), Event.endT 0]) := by
  decide

/-- C8: whatever statuses the bus returns during construction (any list
of endTransmission results, covering selection or calibration-write
failures for any rail), the constructor issues exactly the same outgoing
bytes as in the all-success run — it skips nothing, reports nothing, and
returns the fully constructed driver. -/
theorem construct_ignores_bus_failures (s1 s2 s3 s4 : Nat) (b : Fin 2) :
    (construct scriptWire b cal_reg_v0
        { statuses := [s1, s2, s3, s4], counts := [], bytes := [], trace := [] }).1
      = { address := STD_ADDR, board := b }
    ∧ outgoing (construct scriptWire b cal_reg_v0
        { statuses := [s1, s2, s3, s4], counts := [], bytes := [], trace := [] }).2.trace
      = outgoing (initTrace b cal_reg_v0) := by
  rw [initTrace, construct_run, construct_run]
  exact ⟨rfl, by simp [outgoing]⟩

/-- C5 counterexample: called with the out-of-range rail index 2 (both
bus transactions succeeding), get_pwr does not reject at the boundary:
it selects multiplexer channel 6, reads the power register, and then
performs the out-of-bounds LSB-table access (undefined behaviour,
modelled as no defined result). -/
theorem get_pwr_no_bounds_check :
    (get_pwr scriptWire { address := STD_ADDR, board := 0 } lsb_val_v0 2
        { statuses := [0, 0], counts := [2], bytes := [0, 100], trace := [] }).1 = none
    ∧ (get_pwr scriptWire { address := STD_ADDR, board := 0 } lsb_val_v0 2
        { statuses := [0, 0], counts := [2], bytes := [0, 100], trace := [] }).2.trace
      = [Event.beginT MUX_ADDR, Event.writeB 6, Event.endT 0,
         Event.beginT STD_ADDR, Event.writeB PWR_REG, Event.endT 0,
         Event.reqFrom STD_ADDR 2 2, Event.readB 0, Event.readB 100] := by
  decide

/-- C5 amended: get_pwr performs no bounds check on the rail index.  For
every rail index ≥ 2 it still issues the multiplexer selection (channel
byte (rail + 4) % 256) and, when selection and read succeed, reaches the
out-of-bounds LSB-table access instead of failing fast. -/
theorem get_pwr_out_of_range (d : INA226) (sensor : Nat) (bs : List Nat)
    (hs : 2 ≤ sensor) :
    (get_pwr scriptWire d lsb_val_v0 sensor
        { statuses := [0, 0], counts := [2], bytes := bs, trace := [] }).1 = none
    ∧ (get_pwr scriptWire d lsb_val_v0 sensor
        { statuses := [0, 0], counts := [2], bytes := bs, trace := [] }).2.trace
      = [Event.beginT MUX_ADDR, Event.writeB ((sensor + MUX_SENSOR_OFFSET) % 256),
         Event.endT 0, Event.beginT d.address, Event.writeB (PWR_REG % 256), Event.endT 0,
         Event.reqFrom d.address 2 2, Event.readB (bs.headD 0),
         Event.readB (bs.tail.headD 0)] := by
  obtain ⟨addr, b⟩ := d
  have hnone : tableGet lsb_val_v0 b.val sensor = none := by
    fin_cases b <;>
      simp [tableGet, lsb_val_v0, List.get?_eq_none] <;> omega
  have hge : ∀ x : Int, ¬ (x % 65536 < 0) := fun x =>
    Int.not_lt.mpr (Int.emod_nonneg x (by decide))
  refine ⟨?_, ?_⟩ <;>
    simp [get_pwr, sel_sensor, read_reg, scriptWire, hnone, hge]

theorem get_pwr_out_of_range_witness :
    2 ≤ 2
    ∧ ((get_pwr scriptWire { address := STD_ADDR, board := 0 } lsb_val_v0 2
          { statuses := [0, 0], counts := [2], bytes := [], trace := [] }).1 = none
      ∧ (get_pwr scriptWire { address := STD_ADDR, board := 0 } lsb_val_v0 2
          { statuses := [0, 0], counts := [2], bytes := [], trace := [] }).2.trace
        = [Event.beginT MUX_ADDR, Event.writeB ((2 + MUX_SENSOR_OFFSET) % 256),
           Event.endT 0, Event.beginT STD_ADDR, Event.writeB (PWR_REG % 256), Event.endT 0,
           Event.reqFrom STD_ADDR 2 2, Event.readB (List.headD [] 0),
           Event.readB (List.headD (List.tail []) 0)]) :=
  ⟨Nat.le_refl 2, get_pwr_out_of_range { address := STD_ADDR, board := 0 } 2 [] (Nat.le_refl 2)⟩

theorem read_run (address reg st cnt b1 b2 : Nat) :
    (read_reg scriptWire address reg
        { statuses := [st], counts := [cnt], bytes := [b1, b2], trace := [] }).1
      = if st = 0 then
          (if cnt = 2 then Int.ofNat ((((b1 % 65536) <<< 8) % 65536 ||| b2) % 65536) else -1)
        else -1 := by
  by_cases hst : st = 0 <;> by_cases hcnt : cnt = 2 <;>
    simp [read_reg, scriptWire, hst, hcnt]

/-- C2: if the multiplexer selection returns a nonzero status, get_pwr
returns the sentinel -1.0 and the bus sees only the selection
transaction — no power-register transaction, request or read occurs; if
the selection succeeds but the register read fails (address phase not
acknowledged, or a byte count other than 2 arrives), get_pwr likewise
returns -1.0.  In every case the failure surfaces only in the return
value. -/
theorem get_pwr_bus_failure (d : INA226) (sensor st1 st2 cnt : Nat) (cs bs : List Nat)
    (h1 : st1 ≠ 0) (h2 : st2 ≠ 0) (h3 : cnt ≠ 2) :
    (get_pwr scriptWire d lsb_val_v0 sensor
        { statuses := [st1], counts := cs, bytes := bs, trace := [] }
      = (some (-1), { statuses := [], counts := cs, bytes := bs,
                      trace := [Event.beginT MUX_ADDR,
                        Event.writeB ((sensor + MUX_SENSOR_OFFSET) % 256),
                        Event.endT st1] }))
    ∧ ((get_pwr scriptWire d lsb_val_v0 sensor
        { statuses := [0, st2], counts := cs, bytes := bs, trace := [] }).1 = some (-1))
    ∧ ((get_pwr scriptWire d lsb_val_v0 sensor
        { statuses := [0, 0], counts := [cnt], bytes := bs, trace := [] }).1 = some (-1)) := by
  refine ⟨?_, ?_, ?_⟩ <;>
    simp [get_pwr, sel_sensor, read_reg, scriptWire, h1, h2, h3]

theorem get_pwr_bus_failure_witness :
    (1 : Nat) ≠ 0 ∧ (3 : Nat) ≠ 2 ∧
    ((get_pwr scriptWire { address := STD_ADDR, board := 0 } lsb_val_v0 0
        { statuses := [1], counts := [], bytes := [], trace := [] }
      = (some (-1), { statuses := [], counts := [], bytes := [],
                      trace := [Event.beginT MUX_ADDR,
                        Event.writeB ((0 + MUX_SENSOR_OFFSET) % 256),
                        Event.endT 1] }))
    ∧ ((get_pwr scriptWire { address := STD_ADDR, board := 0 } lsb_val_v0 0
        { statuses := [0, 1], counts := [], bytes := [], trace := [] }).1 = some (-1))
    ∧ ((get_pwr scriptWire { address := STD_ADDR, board := 0 } lsb_val_v0 0
        { statuses := [0, 0], counts := [3], bytes := [], trace := [] }).1 = some (-1))) :=
  ⟨by decide, by decide,
    get_pwr_bus_failure { address := STD_ADDR, board := 0 } 0 1 1 3 [] []
      (by decide) (by decide) (by decide)⟩

/-- C6: read_reg returns -1 exactly when the transport fails (nonzero
status in the address phase, or a byte count other than 2 from the
two-byte request); on success it returns the two received bytes
reassembled big-endian — first byte as high byte — as a value in
[0, 65535] inside the wider Int, so -1 is distinct from every successful
result. -/
theorem read_reg_sentinel (address reg st cnt b1 b2 : Nat)
    (h1 : b1 < 256) (h2 : b2 < 256) :
    ((read_reg scriptWire address reg
        { statuses := [st], counts := [cnt], bytes := [b1, b2], trace := [] }).1 = -1
      ↔ (st ≠ 0 ∨ cnt ≠ 2))
    ∧ (st = 0 → cnt = 2 →
        (read_reg scriptWire address reg
          { statuses := [st], counts := [cnt], bytes := [b1, b2], trace := [] }).1
            = Int.ofNat (b1 * 256 + b2)
        ∧ 0 ≤ (read_reg scriptWire address reg
            { statuses := [st], counts := [cnt], bytes := [b1, b2], trace := [] }).1
        ∧ (read_reg scriptWire address reg
            { statuses := [st], counts := [cnt], bytes := [b1, b2], trace := [] }).1 ≤ 65535) := by
  have h := read_run address reg st cnt b1 b2
  have hv := reassemble b1 b2 h1 h2
  rw [hv] at h
  by_cases hst : st = 0 <;> by_cases hcnt : cnt = 2 <;>
    simp [hst, hcnt] at h <;> simp [h, hst, hcnt] <;> omega

theorem read_reg_sentinel_witness :
    (255 : Nat) < 256 ∧
    (((read_reg scriptWire STD_ADDR PWR_REG
        { statuses := [0], counts := [2], bytes := [255, 255], trace := [] }).1 = -1
      ↔ ((0 : Nat) ≠ 0 ∨ (2 : Nat) ≠ 2))
    ∧ ((0 : Nat) = 0 → (2 : Nat) = 2 →
        (read_reg scriptWire STD_ADDR PWR_REG
          { statuses := [0], counts := [2], bytes := [255, 255], trace := [] }).1
            = Int.ofNat (255 * 256 + 255)
        ∧ 0 ≤ (read_reg scriptWire STD_ADDR PWR_REG
            { statuses := [0], counts := [2], bytes := [255, 255], trace := [] }).1
        ∧ (read_reg scriptWire STD_ADDR PWR_REG
            { statuses := [0], counts := [2], bytes := [255, 255], trace := [] }).1 ≤ 65535)) :=
  ⟨by decide, read_reg_sentinel STD_ADDR PWR_REG 0 2 255 255 (by decide) (by decide)⟩

/-- C7: writing any 16-bit value through write_reg into the mock register
store (register address, then high byte, then low byte) and reading that
register back through read_reg returns exactly the value written: the
big-endian disassembly of the write path and the big-endian reassembly
of the read path are mutually consistent. -/
theorem write_read_roundtrip (reg v : Nat) (s : MockState) (hv : v < 65536) :
    (read_reg mockWire STD_ADDR reg (write_reg mockWire STD_ADDR reg v s).2).1
      = Int.ofNat v := by
  have h8 : v >>> 8 = v / 256 := by
    rw [Nat.shiftRight_eq_div_pow]
  have hand : v &&& 0xff = v % 256 := by
    have h := Nat.and_pow_two_sub_one_eq_mod v 8
    norm_num at h
    exact h
  have hre : (((v / 256 % 256 % 65536) <<< 8) % 65536 ||| v % 256) % 65536 = v := by
    have := reassemble (v / 256) (v % 256) (by omega) (by omega)
    have e1 : v / 256 % 256 % 65536 = v / 256 % 65536 := by omega
    rw [e1]
    omega
  simp [write_reg, read_reg, mockWire, storeGet, h8, hand]
  omega

theorem write_read_roundtrip_witness :
    0x0D1B < 65536 ∧
    (read_reg mockWire STD_ADDR CAL_REG
        (write_reg mockWire STD_ADDR CAL_REG 0x0D1B
          { regs := [], pointer := 0, txBuf := [], rxBuf := [] }).2).1
      = Int.ofNat 0x0D1B :=
  ⟨by decide, write_read_roundtrip CAL_REG 0x0D1B
    { regs := [], pointer := 0, txBuf := [], rxBuf := [] } (by decide)⟩

/-- C1: for every valid board, every in-range rail and every raw register
value 0..65535, a get_pwr call issued after a successful construction,
in which the selection and the register read both succeed, returns
exactly raw * lsb_val[board][rail] * 25. -/
theorem get_pwr_success (b : Fin 2) (sensor raw : Nat) (hs : sensor < 2) (hr : raw < 65536) :
    (get_pwr scriptWire
        (construct scriptWire b cal_reg_v0
          { statuses := [0, 0, 0, 0, 0, 0], counts := [2],
            bytes := [raw / 256, raw % 256], trace := [] }).1
        lsb_val_v0 sensor
        (construct scriptWire b cal_reg_v0
          { statuses := [0, 0, 0, 0, 0, 0], counts := [2],
            bytes := [raw / 256, raw % 256], trace := [] }).2).1
      = some ((raw : ℚ) * (tableGet lsb_val_v0 b.val sensor).getD 0 * 25) := by
  rw [construct_run]
  have hre : ((((raw / 256) % 65536) <<< 8) % 65536 ||| raw % 256) % 65536 = raw := by
    have := reassemble (raw / 256) (raw % 256) (by omega) (by omega)
    omega
  have hneg : ¬ ((raw : ℤ) < 0) := by omega
  fin_cases b <;> interval_cases sensor <;>
    simp [get_pwr, sel_sensor, read_reg, scriptWire, tableGet, lsb_val_v0,
      POWER_LSB_SCALE, hre, hneg, mul_assoc]

theorem get_pwr_success_witness :
    (1 : Nat) < 2 ∧ (65535 : Nat) < 65536 ∧
    (get_pwr scriptWire
        (construct scriptWire 0 cal_reg_v0
          { statuses := [0, 0, 0, 0, 0, 0], counts := [2],
            bytes := [65535 / 256, 65535 % 256], trace := [] }).1
        lsb_val_v0 1
        (construct scriptWire 0 cal_reg_v0
          { statuses := [0, 0, 0, 0, 0, 0], counts := [2],
            bytes := [65535 / 256, 65535 % 256], trace := [] }).2).1
      = some (((65535 : Nat) : ℚ) * (tableGet lsb_val_v0 (0 : Fin 2).val 1).getD 0 * 25) :=
  ⟨by decide, by decide, get_pwr_success 0 1 65535 (by decide) (by decide)⟩

theorem nonneg_ne_neg_one (q : ℚ) (h : 0 ≤ q) : q ≠ -1 := by
  intro he
  rw [he] at h
  norm_num at h

/-- C10: on any successful read (in-range rail, raw value 0..65535) the
value get_pwr returns is non-negative and in particular never the
failure sentinel -1, because every LSB-scale table entry is positive;
the success and failure ranges of get_pwr are disjoint. -/
theorem get_pwr_success_nonneg (b : Fin 2) (sensor raw : Nat)
    (hs : sensor < 2) (hr : raw < 65536) :
    (∃ v : ℚ, (get_pwr scriptWire { address := STD_ADDR, board := b } lsb_val_v0 sensor
        { statuses := [0, 0], counts := [2], bytes := [raw / 256, raw % 256],
          trace := [] }).1 = some v
      ∧ 0 ≤ v ∧ v ≠ -1)
    ∧ (∀ i j : Nat, i < 2 → j < 2 →
        ∃ l : ℚ, tableGet lsb_val_v0 i j = some l ∧ 0 < l) := by
  have hre : ((((raw / 256) % 65536) <<< 8) % 65536 ||| raw % 256) % 65536 = raw := by
    have := reassemble (raw / 256) (raw % 256) (by omega) (by omega)
    omega
  have hneg : ¬ ((raw : ℤ) < 0) := by omega
  constructor
  · fin_cases b <;> interval_cases sensor <;>
      simp [get_pwr, sel_sensor, read_reg, scriptWire, tableGet, lsb_val_v0,
        POWER_LSB_SCALE, hre, hneg] <;>
      exact ⟨by positivity, nonneg_ne_neg_one _ (by positivity)⟩
  · intro i j hi hj
    interval_cases i <;> interval_cases j <;>
      exact ⟨_, rfl, by norm_num⟩

theorem get_pwr_success_nonneg_witness :
    (0 : Nat) < 2 ∧ (0 : Nat) < 65536 ∧
    ((∃ v : ℚ, (get_pwr scriptWire { address := STD_ADDR, board := 1 } lsb_val_v0 0
        { statuses := [0, 0], counts := [2], bytes := [0 / 256, 0 % 256],
          trace := [] }).1 = some v
      ∧ 0 ≤ v ∧ v ≠ -1)
    ∧ (∀ i j : Nat, i < 2 → j < 2 →
        ∃ l : ℚ, tableGet lsb_val_v0 i j = some l ∧ 0 < l)) :=
  ⟨by decide, by decide, get_pwr_success_nonneg 1 0 0 (by decide) (by decide)⟩

end PowerLogger
